import Mathlib

/-!
Verification development for the `confluence-markdown-exporter` tool
(`src/confluence-markdown-export.py`).

The program is embedded shallowly:

* strings are `List Char` (`Str`), and Python's `str.replace` is modelled by
  `pyReplace` (leftmost, non-overlapping scanning, as CPython implements it);
* the `Exporter` class is modelled as pure state-passing functions
  (`dump_page`, `dump_attachments`, `dump_space`, `dump_spaces`, `dump`) over an
  explicit state `St` carrying the visited-id set and a trace of observable
  events (network calls, directory creation, file writes, warnings);
* the remote Confluence instance and the HTTP layer are an environment `Env`
  (page table, HTTP status and body per URL);
* the markup normalizer `Converter.__convert_atlassian_html` is modelled over a
  rose tree of HTML elements (`Html`, `normalizeNodeF`).

Recursion that is unbounded in the source (page recursion, tree depth) is made
structural with an explicit fuel parameter, so every definition evaluates by
kernel reduction on concrete inputs.
-/

/-- Strings of the embedded program: Python `str` as a list of characters. -/
abbrev Str := List Char

/-- The character list of a Lean string literal. -/
def strChars (s : String) : Str := s.data

/-- Fuel-indexed worker for Python `str.replace(pat, rep)`: scan left to right,
replacing leftmost non-overlapping occurrences of `pat` by `rep`.  The fuel is
only a structural-recursion device; `pyReplace` always supplies enough. -/
def pyReplaceFuel (pat rep : Str) : Nat → Str → Str
  | 0, s => s
  | _ + 1, [] => []
  | fuel + 1, c :: rest =>
    if pat ≠ [] ∧ pat <+: (c :: rest) then
      rep ++ pyReplaceFuel pat rep fuel (rest.drop (pat.length - 1))
    else
      c :: pyReplaceFuel pat rep fuel rest

/-- Python `s.replace(pat, rep)` (for the non-empty patterns used by the code). -/
def pyReplace (pat rep s : Str) : Str := pyReplaceFuel pat rep s.length s

/-- The parent-directory marker `".."`, first entry of the `invalid` list at
line 31 of the source. -/
def dotdot : Str := ['.', '.']

/-- The path separator `"/"`, second entry of the `invalid` list. -/
def slash : Str := ['/']

/-- The replacement string `"_"`. -/
def underscore : Str := ['_']

/-- Observable actions of one exporter run, in program order: collaborator
calls, filesystem operations and the warnings the code prints.  Paths are
relative to the output directory, one list entry per path segment. -/
inductive Event where
  /-- The `print("Dangerous page title: ...")` warning inside
  `__sanitize_filename`, carrying the name being sanitized and the invalid
  substring found in it. -/
  | warnDangerous (name invalid : Str)
  /-- `confluence.get_page_by_id(src_id, expand="body.storage")`. -/
  | fetchPage (id : Nat)
  /-- `confluence.get_child_id_list(page_id)`. -/
  | fetchChildren (id : Nat)
  /-- `confluence.get_attachments_from_content(page_id, ...)`. -/
  | listAttachments (id : Nat)
  /-- `os.makedirs(path, exist_ok=True)`. -/
  | mkdir (path : List Str)
  /-- Writing the raw body of page `id` to `path`. -/
  | writePage (id : Nat) (path : List Str) (content : Str)
  /-- Streaming an attachment body to `path`. -/
  | writeAtt (path : List Str) (content : Str)
  /-- `requests.get(att_url, ...)`. -/
  | httpGet (url : Str)
  /-- The `print("Attachment {} not found (404)!")` log line. -/
  | log404 (url : Str)
  /-- `self.__seen.add(page_id)`. -/
  | markSeen (id : Nat)
  /-- The `print("No spaces found in confluence. ...")` log line. -/
  | logNoSpaces
  /-- The `print("Processing space", space_key)` log line. -/
  | logProcessingSpace (key : Str)
  deriving DecidableEq

/-- One iteration of the `for invalid in ["..", "/"]` loop in
`Exporter.__sanitize_filename` (lines 31-36): if the invalid substring occurs
in the current name, print a warning and replace every occurrence by `"_"`. -/
def sanitize_step (acc : Str × List Event) (invalid : Str) : Str × List Event :=
  if invalid <:+: acc.1 then
    (pyReplace invalid underscore acc.1, acc.2 ++ [Event.warnDangerous acc.1 invalid])
  else acc

/-- `Exporter.__sanitize_filename` (lines 29-37): the loop above unrolled over
its two-element list of invalid substrings.  Returns the sanitized name
together with the warnings printed. -/
def sanitize_filename (document_name_raw : Str) : Str × List Event :=
  sanitize_step (sanitize_step (document_name_raw, []) dotdot) slash

/-- The sanitized name alone. -/
def sanitize (s : Str) : Str := (sanitize_filename s).1

/-- The character substitution performed by replacing `"/"` with `"_"`. -/
def subSlash (c : Char) : Char := if c = '/' then '_' else c

/-- An attachment record as listed by
`get_attachments_from_content(...)["results"]`: the `title` and the
`_links.download` path. -/
structure Attachment where
  title : Str
  download : Str
  deriving DecidableEq

/-- A page as returned by the collaborator: its id, title, raw storage body,
child-id list, and its attachment list. -/
structure Page where
  id : Nat
  title : Str
  body : Str
  childIds : List Nat
  attachments : List Attachment
  deriving DecidableEq

/-- A space record from `get_all_spaces(...)["results"]`: its key and the id of
its homepage, when the record has a homepage reference. -/
structure Space where
  key : Str
  homepage : Option Nat
  deriving DecidableEq

/-- The remote instance and configuration, as seen by the exporter: the page
table, the HTTP status and body of each URL, the pieces of the parsed instance
URL used to rebuild attachment URLs, and the CLI flags. -/
structure Env where
  pages : Nat → Option Page
  status : Str → Nat
  attBody : Str → Str
  baseUrl : Str
  basePath : Str
  noAttach : Bool
  spaceFilter : Option Str

/-- Per-run exporter state: the visited-id set `self.__seen` and the trace of
observable events so far. -/
structure St where
  seen : List Nat
  events : List Event
  deriving DecidableEq

/-- The fatal conditions of a run.  The source raises a single
`ExportException` class (or lets `requests`/the client raise); the constructors
distinguish the messages. -/
inductive ExportErr where
  /-- `ExportException("Duplicate Page ID Found!")` (line 42). -/
  | duplicatePage (id : Nat)
  /-- The collaborator failed to return the requested page. -/
  | pageNotFound (id : Nat)
  /-- `r.raise_for_status()` on a non-404 error response (line 101). -/
  | httpError (status : Nat) (url : Str)
  /-- `ExportException("No homepage found")` (line 119). -/
  | noHomepage (key : Str)
  /-- Fuel exhaustion of the embedding (no counterpart in the source; the
  source recursion is unbounded). -/
  | outOfFuel
  deriving DecidableEq

/-- Append events to the trace. -/
def pushEvents (st : St) (evs : List Event) : St :=
  { st with events := st.events ++ evs }

/-- Python `download.lstrip("/")`: drop all leading slashes. -/
def lstripSlash : Str → Str
  | [] => []
  | c :: rest => if c = '/' then lstripSlash rest else c :: rest

/-- The attachment URL built at lines 81-84:
`urlunparse((scheme, netloc, prefix + download.lstrip("/"), None, None, None))`. -/
def attUrl (env : Env) (download : Str) : Str :=
  env.baseUrl ++ env.basePath ++ lstripSlash download

/-- `ATTACHMENT_FOLDER_NAME = "attachments"` (line 11). -/
def ATTACHMENT_FOLDER_NAME : Str := strChars ("attachments")

/-- The `for i in ret["results"]` attachment loop of `__dump_page`
(lines 77-105).  For each attachment: sanitize the title (printing warnings),
create the attachments directory, issue the GET; on a status `>= 400` either
log and skip (404) or abort (`raise_for_status`); otherwise stream the body to
the attachment file and continue.  `pageOutputDir` is the directory of the
page's own document; since sanitized names contain no `/`,
`os.path.dirname(att_filename)` is exactly `pageOutputDir + ["attachments"]`. -/
def dump_attachments (env : Env) (pageOutputDir : List Str) :
    List Attachment → St → St × Option ExportErr
  | [], st => (st, none)
  | att :: rest, st =>
    let url := attUrl env att.download
    let pr := sanitize_filename att.title
    let attDir := pageOutputDir ++ [ATTACHMENT_FOLDER_NAME]
    let attFile := attDir ++ [pr.1]
    let st1 := pushEvents st (pr.2 ++ [Event.mkdir attDir, Event.httpGet url])
    let s := env.status url
    if 400 ≤ s then
      if s = 404 then
        dump_attachments env pageOutputDir rest (pushEvents st1 [Event.log404 url])
      else
        (st1, some (ExportErr.httpError s url))
    else
      dump_attachments env pageOutputDir rest
        (pushEvents st1 [Event.writeAtt attFile (env.attBody url)])

/-- The `for child_id in child_ids` loop at lines 110-111: run `step` (the
recursive `__dump_page` call) on each child in order, aborting on the first
fatal error. -/
def runChildren (step : Nat → St → St × Option ExportErr) :
    List Nat → St → St × Option ExportErr
  | [], st => (st, none)
  | cid :: rest, st =>
    match step cid st with
    | (st1, some e) => (st1, some e)
    | (st1, none) => runChildren step rest st1

/-- `document_name` at lines 54-58: `"index"` when the page has children, its
title otherwise. -/
def document_name (page : Page) : Str :=
  if page.childIds.length > 0 then strChars ("index") else page.title

/-- `sanitized_parents = list(map(self.__sanitize_filename, parents))`
(line 62). -/
def sanitized_parents (parents : List Str) : List Str := parents.map sanitize

/-- The warnings printed while sanitizing the parent segments at line 62. -/
def parent_warns (parents : List Str) : List Event :=
  (parents.map (fun p => (sanitize_filename p).2)).flatten

/-- `sanitized_filename = self.__sanitize_filename(document_name) + extension`
(line 61). -/
def sanitized_filename_of (page : Page) : Str :=
  sanitize (document_name page) ++ strChars (".html")

/-- `page_location = sanitized_parents + [sanitized_filename]` (line 64). -/
def page_location (page : Page) (parents : List Str) : List Str :=
  sanitized_parents parents ++ [sanitized_filename_of page]

/-- The events of lines 44-71 for one page, in program order: the page fetch,
the child-list fetch, the sanitization warnings (document name first, then the
parent segments), the directory creation
(`os.path.dirname` of the page file, i.e. the sanitized parents), and the
page write. -/
def page_events (srcId : Nat) (page : Page) (parents : List Str) : List Event :=
  [Event.fetchPage srcId, Event.fetchChildren page.id]
    ++ (sanitize_filename (document_name page)).2
    ++ parent_warns parents
    ++ [Event.mkdir (sanitized_parents parents),
        Event.writePage page.id (page_location page parents) page.body]

/-- `Exporter.__dump_page` (lines 39-111), with an explicit fuel bounding the
recursion depth.  Program order is preserved: duplicate check, page fetch,
child-list fetch, sanitization (document name first, then the parent
segments), directory creation, page write, attachment fetching (unless
disabled), recording the id in the visited set, then recursion into the
children with the unsanitized title appended to the sanitized parents. -/
def dump_page (env : Env) : Nat → Nat → List Str → St → St × Option ExportErr
  | 0, _, _, st => (st, some ExportErr.outOfFuel)
  | fuel + 1, srcId, parents, st =>
    if srcId ∈ st.seen then
      (st, some (ExportErr.duplicatePage srcId))
    else
      match env.pages srcId with
      | none => (pushEvents st [Event.fetchPage srcId], some (ExportErr.pageNotFound srcId))
      | some page =>
        let st1 := pushEvents st (page_events srcId page parents)
        let attRes :=
          if env.noAttach then (st1, none)
          else
            dump_attachments env (sanitized_parents parents) page.attachments
              (pushEvents st1 [Event.listAttachments page.id])
        match attRes with
        | (st2, some e) => (st2, some e)
        | (st2, none) =>
          let st3 : St :=
            { seen := st2.seen ++ [page.id],
              events := st2.events ++ [Event.markSeen page.id] }
          runChildren
            (fun cid st' =>
              dump_page env fuel cid (sanitized_parents parents ++ [page.title]) st')
            page.childIds st3

/-- `Exporter.__dump_space` (lines 113-123): log the space, raise
`NoHomepageError` when the record has no homepage reference, otherwise export
recursively from the homepage with the space key as sole initial segment. -/
def dump_space (env : Env) (fuel : Nat) (space : Space) (st : St) :
    St × Option ExportErr :=
  let st1 := pushEvents st [Event.logProcessingSpace space.key]
  match space.homepage with
  | none => (st1, some (ExportErr.noHomepage space.key))
  | some hid => dump_page env fuel hid [space.key] st1

/-- `if self.__space is None or space["key"] == self.__space` (line 131). -/
def spaceSelected (env : Env) (sp : Space) : Bool :=
  match env.spaceFilter with
  | none => true
  | some k => sp.key = k

/-- The `for space in ret["results"]` loop of `Exporter.dump` (lines 130-132):
process each selected space in order; a fatal error unwinds immediately. -/
def dump_spaces (env : Env) (fuel : Nat) : List Space → St → St × Option ExportErr
  | [], st => (st, none)
  | sp :: rest, st =>
    if spaceSelected env sp then
      match dump_space env fuel sp st with
      | (st1, some e) => (st1, some e)
      | (st1, none) => dump_spaces env fuel rest st1
    else dump_spaces env fuel rest st

/-- `Exporter.dump` (lines 126-132): log when zero spaces are returned, then
walk the space list. -/
def dump (env : Env) (fuel : Nat) (spaces : List Space) (st : St) :
    St × Option ExportErr :=
  let st1 := if spaces.length = 0 then pushEvents st [Event.logNoSpaces] else st
  dump_spaces env fuel spaces st1

/-- The paths of the page documents written in a trace, in order. -/
def writtenPages (evs : List Event) : List (List Str) :=
  evs.filterMap fun e =>
    match e with
    | Event.writePage _ path _ => some path
    | _ => none

/-- The paths of the attachment files written in a trace, in order. -/
def writtenAtts (evs : List Event) : List (List Str) :=
  evs.filterMap fun e =>
    match e with
    | Event.writeAtt path _ => some path
    | _ => none

/-- The ids whose pages were fetched in a trace. -/
def fetchedIds (evs : List Event) : List Nat :=
  evs.filterMap fun e =>
    match e with
    | Event.fetchPage i => some i
    | _ => none

/-- The ids whose page documents were written in a trace. -/
def writtenIds (evs : List Event) : List Nat :=
  evs.filterMap fun e =>
    match e with
    | Event.writePage i _ _ => some i
    | _ => none

/-- Scanning a trace left to right: every `markSeen d` must be preceded by a
fetch of page `d` and a write of page `d`'s document.  `fetched` and `written`
accumulate the ids fetched/written in the part of the trace already consumed. -/
def seenOkFrom (fetched written : List Nat) : List Event → Prop
  | [] => True
  | e :: rest =>
    match e with
    | Event.markSeen d => (d ∈ fetched ∧ d ∈ written) ∧ seenOkFrom fetched written rest
    | Event.fetchPage i => seenOkFrom (i :: fetched) written rest
    | Event.writePage i _ _ => seenOkFrom fetched (i :: written) rest
    | _ => seenOkFrom fetched written rest

/-- A trace in which every id marked as seen was fetched and written earlier. -/
def seenAfterFetchWrite (evs : List Event) : Prop := seenOkFrom [] [] evs

/-- A well-formed instance: fetching a page by id returns a page carrying that
id. -/
def EnvWF (env : Env) : Prop := ∀ id p, env.pages id = some p → p.id = id

/-- In a trace, no HTTP GET occurs before the first creation of directory `d`:
used to state that the attachments directory exists before any download
request of the attachment loop is issued (and hence before any response status
is inspected). -/
def noGetBeforeMkdir (d : List Str) : List Event → Prop
  | [] => True
  | e :: rest =>
    match e with
    | Event.httpGet _ => False
    | Event.mkdir p => if p = d then True else noGetBeforeMkdir d rest
    | _ => noGetBeforeMkdir d rest

/-- An HTML element node of the parsed document model used by the converter.
Text nodes are not modelled: the claims about the normalizer concern element
structure only. -/
inductive Html where
  | el (name : Str) (attrs : List (Str × Str)) (children : List Html)

/-- bs4 `tag.get(key, None)`: attribute lookup on an element. -/
def getAttr (n : Html) (key : Str) : Option Str :=
  match n with
  | Html.el _ attrs _ => attrs.lookup key

/-- The `for child in image.children: url = child.get("ri:filename", None);
break` loop at lines 151-153: only the first direct child is ever inspected;
with no children the loop body never runs and `url` stays `None`. -/
def firstChildFilename (children : List Html) : Option Str :=
  match children with
  | [] => none
  | c :: _ => getAttr c (strChars ("ri:filename"))

/-- `os.path.join(a, b)` for two POSIX path components (used at line 160): an
absolute second component discards the first. -/
def osPathJoin (a b : Str) : Str :=
  if b.head? = some '/' then b
  else if a = [] ∨ a.getLast? = some '/' then a ++ b
  else a ++ '/' :: b

/-- `Converter.__convert_atlassian_html` (lines 148-166) as a structural
rewrite, fuel bounding the tree depth (the node is returned unchanged at fuel
0; any fuel larger than the tree depth computes the full rewrite).  An
`ac:image` element whose first child carries `ri:filename` is replaced by an
`img` element (src and alt both `os.path.join("attachments", filename)`)
followed by the inserted `br`; any other element is kept, its children
processed recursively (`find_all` also collects nested constructs). -/
def normalizeNodeF : Nat → Html → List Html
  | 0, n => [n]
  | fuel + 1, Html.el name attrs children =>
    if name = strChars ("ac:image") then
      match firstChildFilename children with
      | some url =>
        let srcurl := osPathJoin ATTACHMENT_FOLDER_NAME url
        [Html.el (strChars ("img"))
           [(strChars ("src"), srcurl), (strChars ("alt"), srcurl)] [],
         Html.el (strChars ("br")) [] []]
      | none => [Html.el name attrs ((children.map (normalizeNodeF fuel)).flatten)]
    else
      [Html.el name attrs ((children.map (normalizeNodeF fuel)).flatten)]

/-- All proper descendants of a node in document order (bs4 `.descendants`),
down to depth `fuel`. -/
def descendantsF : Nat → Html → List Html
  | 0, _ => []
  | fuel + 1, Html.el _ _ children =>
    (children.map (fun c => c :: descendantsF fuel c)).flatten

/-- Modelled from the spec: claim C7's reading of the filename lookup — the
first descendant node in document order carrying the recognized `ri:filename`
attribute.  Defined only to compare the claim's words with the code's
first-direct-child lookup. -/
def specFirstDescFilename (fuel : Nat) (n : Html) : Option Str :=
  (descendantsF fuel n).findSome? (fun d => getAttr d (strChars ("ri:filename")))

/-- C7 test construct: an `ac:image` whose first direct child carries no
filename attribute while its second child does. -/
def c7node : Html :=
  Html.el (strChars ("ac:image")) []
    [Html.el (strChars ("span")) [] [],
     Html.el (strChars ("span")) [(strChars ("ri:filename"), strChars ("a.png"))] []]

/-- The C8 scenario homepage: id 1, title `"Home"`, one child. -/
def homePage : Page :=
  { id := 1, title := strChars ("Home"), body := strChars ("home-body"),
    childIds := [2], attachments := [] }

/-- The C8 scenario leaf child: id 2, title `"Getting Started"`. -/
def gettingStartedPage : Page :=
  { id := 2, title := strChars ("Getting Started"), body := strChars ("gs-body"),
    childIds := [], attachments := [] }

/-- The scenario space `"DOCS"` with homepage id 1. -/
def docsSpace : Space := { key := strChars ("DOCS"), homepage := some 1 }

/-- The C8 scenario instance. -/
def envDocs : Env :=
  { pages := fun i =>
      if i = 1 then some homePage else if i = 2 then some gettingStartedPage else none,
    status := fun _ => 200, attBody := fun _ => [],
    baseUrl := [], basePath := [], noAttach := false, spaceFilter := none }

/-- The C8 scenario run: export the `"DOCS"` space tree. -/
def runDocs : St × Option ExportErr :=
  dump envDocs 3 [docsSpace] { seen := [], events := [] }

/-- The C9 scenario attachment, titled `"../secret.png"`. -/
def secretAttachment : Attachment :=
  { title := strChars ("../secret.png"), download := strChars ("/download/secret.png") }

/-- The C9 scenario homepage `"Home"`, a leaf carrying the attachment. -/
def homePageAtt : Page :=
  { id := 1, title := strChars ("Home"), body := strChars ("home-body"),
    childIds := [], attachments := [secretAttachment] }

/-- The C9 scenario instance: every download answers 200. -/
def envDocsAtt : Env :=
  { pages := fun i => if i = 1 then some homePageAtt else none,
    status := fun _ => 200, attBody := fun _ => strChars ("PNG"),
    baseUrl := strChars ("https://conf.example"), basePath := [],
    noAttach := false, spaceFilter := none }

/-- The C9 scenario run: export the `"DOCS"` space with the hostile
attachment title. -/
def runDocsAtt : St × Option ExportErr :=
  dump envDocsAtt 2 [docsSpace] { seen := [], events := [] }

/-- The element name of a node. -/
def elName : Html → Str
  | Html.el n _ _ => n

/-- A plain attachment used to exercise the attachment fetcher. -/
def att0 : Attachment :=
  { title := strChars ("diagram.png"), download := strChars ("/download/diagram.png") }

/-- An instance whose every download answers 404. -/
def env404 : Env :=
  { pages := fun _ => none, status := fun _ => 404, attBody := fun _ => [],
    baseUrl := [], basePath := [], noAttach := false, spaceFilter := none }

/-- An instance whose every download answers 500. -/
def env500 : Env :=
  { pages := fun _ => none, status := fun _ => 500, attBody := fun _ => [],
    baseUrl := [], basePath := [], noAttach := false, spaceFilter := none }

/-- An instance whose every download answers 200. -/
def env200 : Env :=
  { pages := fun _ => none, status := fun _ => 200, attBody := fun _ => strChars ("data"),
    baseUrl := [], basePath := [], noAttach := false, spaceFilter := none }

/-- A space record with no homepage reference. -/
def noHomeSpace : Space := { key := strChars ("NOHOME"), homepage := none }

theorem dotdot_eq : dotdot = ['.', '.'] := rfl

theorem slash_eq : slash = ['/'] := rfl

theorem underscore_eq : underscore = ['_'] := rfl

/-- Replacing a single-character pattern by a single-character replacement is a
character map. -/
theorem pyReplaceFuel_single (p r : Char) :
    ∀ fuel s, s.length ≤ fuel →
      pyReplaceFuel [p] [r] fuel s = s.map (fun c => if c = p then r else c) := by
  intro fuel
  induction fuel with
  | zero =>
    intro s hs
    cases s with
    | nil => rfl
    | cons c rest => simp at hs
  | succ n ih =>
    intro s hs
    cases s with
    | nil => rfl
    | cons c rest =>
      have hlen : rest.length ≤ n := by
        simp only [List.length_cons] at hs
        omega
      simp only [pyReplaceFuel]
      by_cases hc : c = p
      · subst hc
        rw [if_pos ⟨by simp, List.cons_prefix_cons.mpr ⟨rfl, List.nil_prefix⟩⟩]
        simp only [List.length_singleton, Nat.sub_self, List.drop_zero,
          List.singleton_append, List.map_cons, ih rest hlen]
        simp
      · rw [if_neg (by
          rintro ⟨-, hpre⟩
          exact hc (List.cons_prefix_cons.mp hpre).1.symm)]
        simp only [List.map_cons, if_neg hc, ih rest hlen]

/-- After replacing `".."` by `"_"`, no occurrence of `".."` remains; moreover
the head character of the result is either `'_'` or the head of the input. -/
theorem pyReplaceFuel_dd_core :
    ∀ fuel s, s.length ≤ fuel →
      ¬ (['.', '.'] <:+: pyReplaceFuel ['.', '.'] ['_'] fuel s) ∧
      (∀ c, (pyReplaceFuel ['.', '.'] ['_'] fuel s).head? = some c →
        c = '_' ∨ s.head? = some c) := by
  intro fuel
  induction fuel with
  | zero =>
    intro s hs
    cases s with
    | nil =>
      refine ⟨by simp [pyReplaceFuel], ?_⟩
      intro c hc
      simp [pyReplaceFuel] at hc
    | cons c rest => simp at hs
  | succ n ih =>
    intro s hs
    cases s with
    | nil =>
      refine ⟨by simp [pyReplaceFuel], ?_⟩
      intro c hc
      simp [pyReplaceFuel] at hc
    | cons c rest =>
      have hlen2 : rest.length ≤ n := by
        simp only [List.length_cons] at hs
        omega
      simp only [pyReplaceFuel]
      by_cases hmatch : (['.', '.'] : Str) ≠ [] ∧ (['.', '.'] : Str) <+: (c :: rest)
      · rw [if_pos hmatch]
        obtain ⟨-, hpre⟩ := hmatch
        obtain ⟨hc, hpre'⟩ := List.cons_prefix_cons.mp hpre
        cases rest with
        | nil => simp at hpre'
        | cons d rest' =>
          obtain ⟨hd, -⟩ := List.cons_prefix_cons.mp hpre'
          subst hc
          subst hd
          have ihr := ih rest' (by simp only [List.length_cons] at hs; omega)
          have hdrop :
              (('.' :: rest').drop ((['.', '.'] : Str).length - 1)) = rest' := by simp
          rw [hdrop, List.singleton_append]
          constructor
          · intro hinf
            rcases List.infix_cons_iff.mp hinf with hp | hi
            · exact absurd (List.cons_prefix_cons.mp hp).1 (by decide)
            · exact ihr.1 hi
          · intro e he
            simp only [List.head?_cons, Option.some.injEq] at he
            exact Or.inl he.symm
      · rw [if_neg hmatch]
        have hnpre : ¬ ((['.', '.'] : Str) <+: (c :: rest)) := fun hpre =>
          hmatch ⟨by simp, hpre⟩
        have ihr := ih rest hlen2
        constructor
        · intro hinf
          rcases List.infix_cons_iff.mp hinf with hp | hi
          · obtain ⟨hc, hpre'⟩ := List.cons_prefix_cons.mp hp
            cases hout : pyReplaceFuel ['.', '.'] ['_'] n rest with
            | nil =>
              rw [hout] at hpre'
              simp at hpre'
            | cons e out =>
              rw [hout] at hpre'
              obtain ⟨he, -⟩ := List.cons_prefix_cons.mp hpre'
              have hh := ihr.2 e (by rw [hout]; rfl)
              rcases hh with h1 | h2
              · rw [← he] at h1
                exact absurd h1 (by decide)
              · rw [← he] at h2
                cases rest with
                | nil => simp at h2
                | cons d rest' =>
                  simp only [List.head?_cons, Option.some.injEq] at h2
                  exact hnpre (by
                    rw [← hc, h2]
                    exact List.cons_prefix_cons.mpr ⟨rfl,
                      List.cons_prefix_cons.mpr ⟨rfl, List.nil_prefix⟩⟩)
          · exact ihr.1 hi
        · intro e he
          simp only [List.head?_cons, Option.some.injEq] at he
          exact Or.inr (by simp [he])

/-- The `".."` replacement performed by `__sanitize_filename` leaves no
`".."`. -/
theorem pyReplace_dd_no_dd (x : Str) : ¬ (dotdot <:+: pyReplace dotdot underscore x) := by
  have h := (pyReplaceFuel_dd_core x.length x (Nat.le_refl _)).1
  simpa [pyReplace, dotdot, underscore] using h


/-- The slash replacement in `__sanitize_filename` is the map of `subSlash`. -/
theorem pyReplace_slash (s : Str) :
    pyReplace slash underscore s = s.map subSlash := by
  rw [slash_eq, underscore_eq] at *
  exact pyReplaceFuel_single '/' '_' s.length s (Nat.le_refl _)

theorem map_subSlash_no_slash (s : Str) : ¬ (slash <:+: s.map subSlash) := by
  intro hinf
  have hmem : '/' ∈ s.map subSlash := hinf.subset (by rw [slash_eq]; simp)
  rcases List.mem_map.mp hmem with ⟨a, -, ha⟩
  by_cases h : a = '/'
  · rw [subSlash, if_pos h] at ha
    exact absurd ha (by decide)
  · rw [subSlash, if_neg h] at ha
    exact h ha

/-- Replacing slashes cannot create an occurrence of `".."`. -/
theorem dd_infix_of_map_subSlash :
    ∀ l : Str, dotdot <:+: l.map subSlash → dotdot <:+: l := by
  intro l
  induction l with
  | nil => simp
  | cons c t ih =>
    intro hinf
    simp only [List.map_cons] at hinf
    rcases List.infix_cons_iff.mp hinf with hp | hi
    · rw [dotdot_eq] at hp
      obtain ⟨hc, hpre'⟩ := List.cons_prefix_cons.mp hp
      have hcdot : c = '.' := by
        by_cases h : c = '/'
        · rw [subSlash, if_pos h] at hc; exact absurd hc (by decide)
        · rw [subSlash, if_neg h] at hc; exact hc.symm
      cases t with
      | nil => simp at hpre'
      | cons d t' =>
        simp only [List.map_cons] at hpre'
        obtain ⟨hd, -⟩ := List.cons_prefix_cons.mp hpre'
        have hddot : d = '.' := by
          by_cases h : d = '/'
          · rw [subSlash, if_pos h] at hd; exact absurd hd (by decide)
          · rw [subSlash, if_neg h] at hd; exact hd.symm
        subst hcdot
        subst hddot
        exact (List.cons_prefix_cons.mpr
          ⟨rfl, List.cons_prefix_cons.mpr ⟨rfl, List.nil_prefix⟩⟩ :
            dotdot <+: '.' :: '.' :: t').isInfix
    · exact List.infix_cons (ih hi)

/-- The name component computed by one sanitization step depends only on the
incoming name, not on the warnings accumulated so far. -/
theorem sanitize_step_fst (p : Str × List Event) (invalid : Str) :
    (sanitize_step p invalid).1 =
      if invalid <:+: p.1 then pyReplace invalid underscore p.1 else p.1 := by
  unfold sanitize_step
  by_cases h : invalid <:+: p.1
  · rw [if_pos h, if_pos h]
  · rw [if_neg h, if_neg h]

/-- Closed form of the sanitized name: the `".."` pass followed by the `"/"`
pass. -/
theorem sanitize_eq (x : Str) :
    sanitize x =
      (if slash <:+: (if dotdot <:+: x then pyReplace dotdot underscore x else x) then
        pyReplace slash underscore
          (if dotdot <:+: x then pyReplace dotdot underscore x else x)
      else if dotdot <:+: x then pyReplace dotdot underscore x else x) := by
  unfold sanitize sanitize_filename
  rw [sanitize_step_fst, sanitize_step_fst]

/-- The first sanitization step (the `".."` pass) leaves no `".."`. -/
theorem sanitize_step1_no_dd (x : Str) :
    ¬ (dotdot <:+: (if dotdot <:+: x then pyReplace dotdot underscore x else x)) := by
  by_cases h : dotdot <:+: x
  · rw [if_pos h]
    exact pyReplace_dd_no_dd x
  · rw [if_neg h]
    exact h

/-- `sanitize` output never contains `".."`. -/
theorem sanitize_no_dd (x : Str) : ¬ (dotdot <:+: sanitize x) := by
  rw [sanitize_eq]
  have h1 := sanitize_step1_no_dd x
  by_cases h2 : slash <:+: (if dotdot <:+: x then pyReplace dotdot underscore x else x)
  · rw [if_pos h2, pyReplace_slash]
    intro hin
    exact h1 (dd_infix_of_map_subSlash _ hin)
  · rw [if_neg h2]
    exact h1

/-- `sanitize` output never contains `"/"`. -/
theorem sanitize_no_slash (x : Str) : ¬ (slash <:+: sanitize x) := by
  rw [sanitize_eq]
  by_cases h2 : slash <:+: (if dotdot <:+: x then pyReplace dotdot underscore x else x)
  · rw [if_pos h2, pyReplace_slash]
    exact map_subSlash_no_slash _
  · rw [if_neg h2]
    exact h2

/-- On a name free of both invalid substrings, `__sanitize_filename` is the
identity and prints nothing. -/
theorem sanitize_filename_of_clean (s : Str) (h1 : ¬ (dotdot <:+: s))
    (h2 : ¬ (slash <:+: s)) : sanitize_filename s = (s, []) := by
  unfold sanitize_filename
  have e1 : sanitize_step (s, []) dotdot = (s, []) := by
    unfold sanitize_step
    exact if_neg h1
  rw [e1]
  unfold sanitize_step
  exact if_neg h2

/-- C3: for every string `x`, the result `sanitize(x)` contains no occurrence
of the substring `".."` and no occurrence of the substring `"/"`. -/
theorem claim_C3_sanitize_removes_invalid (x : Str) :
    ¬ (dotdot <:+: sanitize x) ∧ ¬ (slash <:+: sanitize x) :=
  ⟨sanitize_no_dd x, sanitize_no_slash x⟩

/-- C4: sanitization is idempotent: `sanitize(sanitize(x)) = sanitize(x)` for
every string `x`. -/
theorem claim_C4_sanitize_idempotent (x : Str) :
    sanitize (sanitize x) = sanitize x := by
  show (sanitize_filename (sanitize x)).1 = sanitize x
  rw [sanitize_filename_of_clean (sanitize x) (sanitize_no_dd x) (sanitize_no_slash x)]

theorem pushEvents_pushEvents (st : St) (a b : List Event) :
    pushEvents (pushEvents st a) b = pushEvents st (a ++ b) := by
  simp [pushEvents]

/-- Each sanitization step only ever appends dangerous-title warnings. -/
theorem sanitize_step_snd_sub (p : Str × List Event) (inv : Str) :
    ∀ e ∈ (sanitize_step p inv).2, e ∈ p.2 ∨ ∃ a b, e = Event.warnDangerous a b := by
  intro e he
  unfold sanitize_step at he
  by_cases h : inv <:+: p.1
  · rw [if_pos h] at he
    rcases List.mem_append.mp he with h1 | h2
    · exact Or.inl h1
    · simp only [List.mem_singleton] at h2
      exact Or.inr ⟨_, _, h2⟩
  · rw [if_neg h] at he
    exact Or.inl he

/-- Every event printed by `__sanitize_filename` is a dangerous-title
warning. -/
theorem sanitize_filename_warns (s : Str) :
    ∀ e ∈ (sanitize_filename s).2, ∃ a b, e = Event.warnDangerous a b := by
  intro e he
  rcases sanitize_step_snd_sub _ _ e he with h1 | h2
  · rcases sanitize_step_snd_sub _ _ e h1 with h3 | h4
    · simp at h3
    · exact h4
  · exact h2

theorem writtenPages_append (xs ys : List Event) :
    writtenPages (xs ++ ys) = writtenPages xs ++ writtenPages ys := by
  simp [writtenPages]

theorem writtenAtts_append (xs ys : List Event) :
    writtenAtts (xs ++ ys) = writtenAtts xs ++ writtenAtts ys := by
  simp [writtenAtts]

/-- Warnings contribute no attachment writes. -/
theorem writtenAtts_warns (ws : List Event)
    (hw : ∀ e ∈ ws, ∃ a b, e = Event.warnDangerous a b) : writtenAtts ws = [] := by
  induction ws with
  | nil => rfl
  | cons e ws ih =>
    obtain ⟨a, b, rfl⟩ := hw e (by simp)
    simp only [writtenAtts, List.filterMap_cons]
    exact ih (fun e he => hw e (by simp [he]))

/-- Walking a concatenation of space lists: the suffix is processed only when
the prefix finished without a fatal error. -/
theorem dump_spaces_append (env : Env) (fuel : Nat) :
    ∀ xs ys st,
      dump_spaces env fuel (xs ++ ys) st =
        match dump_spaces env fuel xs st with
        | (st1, none) => dump_spaces env fuel ys st1
        | (st1, some e) => (st1, some e) := by
  intro xs
  induction xs with
  | nil =>
    intro ys st
    rfl
  | cons sp rest ih =>
    intro ys st
    simp only [List.cons_append, dump_spaces]
    by_cases hsel : spaceSelected env sp = true
    · rw [if_pos hsel, if_pos hsel]
      cases hds : dump_space env fuel sp st with
      | mk st1 e =>
        cases e with
        | none => exact ih ys st1
        | some err => rfl
    · rw [if_neg hsel, if_neg hsel]
      exact ih ys st

/-- C5: a space processed by `dump` whose record has no homepage reference
raises `NoHomepageError` naming the space; nothing of that space is exported
(the state gains only the processing log line, in particular no page
document), and the error aborts the whole run: spaces enumerated after it are
not walked at all. -/
theorem claim_C5_no_homepage_aborts (env : Env) (fuel : Nat) (sp : Space)
    (pre post : List Space) (st st1 : St)
    (hpre : dump_spaces env fuel pre st = (st1, none))
    (hsel : spaceSelected env sp = true)
    (hhome : sp.homepage = none) :
    dump_space env fuel sp st1 =
      (pushEvents st1 [Event.logProcessingSpace sp.key],
       some (ExportErr.noHomepage sp.key)) ∧
    dump env fuel (pre ++ sp :: post) st =
      (pushEvents st1 [Event.logProcessingSpace sp.key],
       some (ExportErr.noHomepage sp.key)) ∧
    writtenPages (pushEvents st1 [Event.logProcessingSpace sp.key]).events =
      writtenPages st1.events := by
  have hspace : dump_space env fuel sp st1 =
      (pushEvents st1 [Event.logProcessingSpace sp.key],
       some (ExportErr.noHomepage sp.key)) := by
    unfold dump_space
    rw [hhome]
  refine ⟨hspace, ?_, ?_⟩
  · unfold dump
    rw [if_neg (by simp)]
    rw [dump_spaces_append env fuel pre (sp :: post) st, hpre]
    simp only [dump_spaces]
    rw [if_pos hsel, hspace]
  · simp [pushEvents, writtenPages_append, writtenPages]

/-- Witness for C5: a concrete run over a homepage-less space followed by a
healthy space; the healthy space is never reached. -/
theorem claim_C5_no_homepage_aborts_witness :
    dump_space envDocs 1 noHomeSpace { seen := [], events := [] } =
      (pushEvents { seen := [], events := [] }
         [Event.logProcessingSpace noHomeSpace.key],
       some (ExportErr.noHomepage noHomeSpace.key)) ∧
    dump envDocs 1 ([] ++ noHomeSpace :: [docsSpace]) { seen := [], events := [] } =
      (pushEvents { seen := [], events := [] }
         [Event.logProcessingSpace noHomeSpace.key],
       some (ExportErr.noHomepage noHomeSpace.key)) ∧
    writtenPages (pushEvents { seen := [], events := [] }
        [Event.logProcessingSpace noHomeSpace.key]).events =
      writtenPages ({ seen := [], events := [] } : St).events :=
  claim_C5_no_homepage_aborts envDocs 1 noHomeSpace [] [docsSpace]
    { seen := [], events := [] } { seen := [], events := [] } rfl (by decide) rfl

theorem markSeen_not_mem_warns (s : Str) (d : Nat) :
    Event.markSeen d ∉ (sanitize_filename s).2 := by
  intro h
  obtain ⟨a, b, hab⟩ := sanitize_filename_warns s _ h
  exact Event.noConfusion hab

/-- The attachment loop only appends events, never a `markSeen`, and leaves
the visited set unchanged. -/
theorem dump_attachments_mono (env : Env) (dir : List Str) :
    ∀ atts st, ∃ Δ,
      (dump_attachments env dir atts st).1.events = st.events ++ Δ ∧
      (∀ d, Event.markSeen d ∉ Δ) ∧
      (dump_attachments env dir atts st).1.seen = st.seen := by
  intro atts
  induction atts with
  | nil =>
    intro st
    exact ⟨[], by simp [dump_attachments], by simp, rfl⟩
  | cons att rest ih =>
    intro st
    simp only [dump_attachments]
    by_cases h4 : 400 ≤ env.status (attUrl env att.download)
    · rw [if_pos h4]
      by_cases h44 : env.status (attUrl env att.download) = 404
      · rw [if_pos h44]
        obtain ⟨Δ, hΔ, hm, hs⟩ := ih (pushEvents (pushEvents st
          ((sanitize_filename att.title).2 ++
            [Event.mkdir (dir ++ [ATTACHMENT_FOLDER_NAME]),
             Event.httpGet (attUrl env att.download)]))
          [Event.log404 (attUrl env att.download)])
        refine ⟨((sanitize_filename att.title).2 ++
            [Event.mkdir (dir ++ [ATTACHMENT_FOLDER_NAME]),
             Event.httpGet (attUrl env att.download)]) ++
            ([Event.log404 (attUrl env att.download)] ++ Δ), ?_, ?_, ?_⟩
        · rw [hΔ]
          simp [pushEvents, List.append_assoc]
        · intro d hd
          rcases List.mem_append.mp hd with h | h
          · rcases List.mem_append.mp h with h1 | h1
            · exact markSeen_not_mem_warns att.title d h1
            · simp at h1
          · rcases List.mem_append.mp h with h1 | h1
            · simp at h1
            · exact hm d h1
        · exact hs
      · rw [if_neg h44]
        refine ⟨(sanitize_filename att.title).2 ++
            [Event.mkdir (dir ++ [ATTACHMENT_FOLDER_NAME]),
             Event.httpGet (attUrl env att.download)], ?_, ?_, rfl⟩
        · simp [pushEvents, List.append_assoc]
        · intro d hd
          rcases List.mem_append.mp hd with h | h
          · exact markSeen_not_mem_warns att.title d h
          · simp at h
    · rw [if_neg h4]
      obtain ⟨Δ, hΔ, hm, hs⟩ := ih (pushEvents (pushEvents st
        ((sanitize_filename att.title).2 ++
          [Event.mkdir (dir ++ [ATTACHMENT_FOLDER_NAME]),
           Event.httpGet (attUrl env att.download)]))
        [Event.writeAtt (dir ++ [ATTACHMENT_FOLDER_NAME] ++
            [(sanitize_filename att.title).1])
          (env.attBody (attUrl env att.download))])
      refine ⟨((sanitize_filename att.title).2 ++
          [Event.mkdir (dir ++ [ATTACHMENT_FOLDER_NAME]),
           Event.httpGet (attUrl env att.download)]) ++
          ([Event.writeAtt (dir ++ [ATTACHMENT_FOLDER_NAME] ++
              [(sanitize_filename att.title).1])
            (env.attBody (attUrl env att.download))] ++ Δ), ?_, ?_, ?_⟩
      · rw [hΔ]
        simp [pushEvents, List.append_assoc]
      · intro d hd
        rcases List.mem_append.mp hd with h | h
        · rcases List.mem_append.mp h with h1 | h1
          · exact markSeen_not_mem_warns att.title d h1
          · simp at h1
        · rcases List.mem_append.mp h with h1 | h1
          · simp at h1
          · exact hm d h1
      · exact hs

/-- When every attachment answers an ok status or 404, the loop finishes
without a fatal error. -/
theorem dump_attachments_ok_of_mild (env : Env) (dir : List Str) :
    ∀ atts st,
      (∀ a ∈ atts, env.status (attUrl env a.download) < 400 ∨
        env.status (attUrl env a.download) = 404) →
      (dump_attachments env dir atts st).2 = none := by
  intro atts
  induction atts with
  | nil =>
    intro st _
    rfl
  | cons att rest ih =>
    intro st h
    rcases h att (by simp) with hok | h404
    · simp only [dump_attachments]
      rw [if_neg (by omega)]
      exact ih _ (fun a ha => h a (by simp [ha]))
    · simp only [dump_attachments]
      rw [h404, if_pos (by norm_num), if_pos rfl]
      exact ih _ (fun a ha => h a (by simp [ha]))

/-- When every attachment of the page answers 404, the loop finishes without
error and writes no attachment file. -/
theorem dump_attachments_all404 (env : Env) (dir : List Str) :
    ∀ atts st, (∀ a ∈ atts, env.status (attUrl env a.download) = 404) →
      (dump_attachments env dir atts st).2 = none ∧
      writtenAtts (dump_attachments env dir atts st).1.events =
        writtenAtts st.events := by
  intro atts
  induction atts with
  | nil =>
    intro st _
    exact ⟨rfl, rfl⟩
  | cons att rest ih =>
    intro st h
    simp only [dump_attachments]
    rw [h att (by simp), if_pos (by norm_num), if_pos rfl]
    obtain ⟨h1, h2⟩ := ih _ (fun a ha => h a (by simp [ha]))
    refine ⟨h1, ?_⟩
    rw [h2]
    simp only [pushEvents, writtenAtts_append,
      writtenAtts_warns _ (sanitize_filename_warns att.title)]
    simp [writtenAtts]

/-- C6: for an attachment at the head of the work list — a 404 response is
logged and skipped and the loop continues with the remaining attachments, no
file being written for it; any other error response (status ≥ 400, ≠ 404)
raises and aborts the run with the remaining attachments unprocessed; an ok
response has its body written in full before the fetcher proceeds.  When every
attachment of the page answers ok or 404, the whole loop finishes without a
fatal error. -/
theorem claim_C6_attachment_status_policy (env : Env) (dir : List Str)
    (att : Attachment) (rest : List Attachment) (st : St) :
    (env.status (attUrl env att.download) = 404 →
      dump_attachments env dir (att :: rest) st =
        dump_attachments env dir rest
          (pushEvents st ((sanitize_filename att.title).2 ++
            [Event.mkdir (dir ++ [ATTACHMENT_FOLDER_NAME]),
             Event.httpGet (attUrl env att.download),
             Event.log404 (attUrl env att.download)]))) ∧
    (400 ≤ env.status (attUrl env att.download) →
      env.status (attUrl env att.download) ≠ 404 →
      dump_attachments env dir (att :: rest) st =
        (pushEvents st ((sanitize_filename att.title).2 ++
           [Event.mkdir (dir ++ [ATTACHMENT_FOLDER_NAME]),
            Event.httpGet (attUrl env att.download)]),
         some (ExportErr.httpError (env.status (attUrl env att.download))
           (attUrl env att.download)))) ∧
    (env.status (attUrl env att.download) < 400 →
      dump_attachments env dir (att :: rest) st =
        dump_attachments env dir rest
          (pushEvents st ((sanitize_filename att.title).2 ++
            [Event.mkdir (dir ++ [ATTACHMENT_FOLDER_NAME]),
             Event.httpGet (attUrl env att.download),
             Event.writeAtt (dir ++ [ATTACHMENT_FOLDER_NAME] ++
                 [(sanitize_filename att.title).1])
               (env.attBody (attUrl env att.download))]))) ∧
    ((∀ a ∈ att :: rest, env.status (attUrl env a.download) < 400 ∨
        env.status (attUrl env a.download) = 404) →
      (dump_attachments env dir (att :: rest) st).2 = none) := by
  refine ⟨?_, ?_, ?_, dump_attachments_ok_of_mild env dir (att :: rest) st⟩
  · intro h404
    simp only [dump_attachments]
    rw [h404, if_pos (by norm_num), if_pos rfl, pushEvents_pushEvents]
    simp
  · intro h4 hne
    simp only [dump_attachments]
    rw [if_pos h4, if_neg hne]
  · intro hok
    simp only [dump_attachments]
    rw [if_neg (by omega), pushEvents_pushEvents]
    simp

/-- Witness for C6: concrete single-attachment runs against instances
answering 404, 500 and 200. -/
theorem claim_C6_attachment_status_policy_witness :
    (dump_attachments env404 [] [att0] { seen := [], events := [] } =
      dump_attachments env404 [] []
        (pushEvents { seen := [], events := [] } ((sanitize_filename att0.title).2 ++
          [Event.mkdir ([] ++ [ATTACHMENT_FOLDER_NAME]),
           Event.httpGet (attUrl env404 att0.download),
           Event.log404 (attUrl env404 att0.download)]))) ∧
    (dump_attachments env500 [] [att0] { seen := [], events := [] } =
      (pushEvents { seen := [], events := [] } ((sanitize_filename att0.title).2 ++
         [Event.mkdir ([] ++ [ATTACHMENT_FOLDER_NAME]),
          Event.httpGet (attUrl env500 att0.download)]),
       some (ExportErr.httpError (env500.status (attUrl env500 att0.download))
         (attUrl env500 att0.download)))) ∧
    (dump_attachments env200 [] [att0] { seen := [], events := [] } =
      dump_attachments env200 [] []
        (pushEvents { seen := [], events := [] } ((sanitize_filename att0.title).2 ++
          [Event.mkdir ([] ++ [ATTACHMENT_FOLDER_NAME]),
           Event.httpGet (attUrl env200 att0.download),
           Event.writeAtt ([] ++ [ATTACHMENT_FOLDER_NAME] ++
               [(sanitize_filename att0.title).1])
             (env200.attBody (attUrl env200 att0.download))]))) ∧
    (dump_attachments env404 [] [att0] { seen := [], events := [] }).2 = none :=
  ⟨(claim_C6_attachment_status_policy env404 [] att0 [] _).1 (by decide),
   (claim_C6_attachment_status_policy env500 [] att0 [] _).2.1 (by decide) (by decide),
   (claim_C6_attachment_status_policy env200 [] att0 [] _).2.2.1 (by decide),
   (claim_C6_attachment_status_policy env404 [] att0 [] _).2.2.2 (by decide)⟩

/-- A block of dangerous-title warnings followed by the creation of directory
`d` satisfies the created-before-any-request ordering, whatever follows. -/
theorem noGetBeforeMkdir_warns (d : List Str) :
    ∀ ws : List Event, (∀ e ∈ ws, ∃ a b, e = Event.warnDangerous a b) →
      ∀ tail, noGetBeforeMkdir d (ws ++ Event.mkdir d :: tail) := by
  intro ws
  induction ws with
  | nil =>
    intro _ tail
    simp [noGetBeforeMkdir]
  | cons e ws ih =>
    intro hw tail
    obtain ⟨a, b, rfl⟩ := hw e (by simp)
    simp only [List.cons_append, noGetBeforeMkdir]
    exact ih (fun e he => hw e (by simp [he])) tail

/-- Every event block appended by the attachment loop opens with the warnings
of the first title followed by the creation of the attachments directory; in
particular no HTTP GET precedes that directory creation. -/
theorem dump_attachments_mkdirFirst (env : Env) (dir : List Str)
    (atts : List Attachment) (st : St) :
    ∃ Δ, (dump_attachments env dir atts st).1.events = st.events ++ Δ ∧
      noGetBeforeMkdir (dir ++ [ATTACHMENT_FOLDER_NAME]) Δ := by
  cases atts with
  | nil => exact ⟨[], by simp [dump_attachments], by simp [noGetBeforeMkdir]⟩
  | cons att rest =>
    simp only [dump_attachments]
    by_cases h4 : 400 ≤ env.status (attUrl env att.download)
    · by_cases h44 : env.status (attUrl env att.download) = 404
      · rw [if_pos h4, if_pos h44]
        obtain ⟨Δr, hr, -, -⟩ := dump_attachments_mono env dir rest
          (pushEvents (pushEvents st
            ((sanitize_filename att.title).2 ++
              [Event.mkdir (dir ++ [ATTACHMENT_FOLDER_NAME]),
               Event.httpGet (attUrl env att.download)]))
            [Event.log404 (attUrl env att.download)])
        refine ⟨(sanitize_filename att.title).2 ++
            Event.mkdir (dir ++ [ATTACHMENT_FOLDER_NAME]) ::
              (Event.httpGet (attUrl env att.download) ::
               Event.log404 (attUrl env att.download) :: Δr), ?_, ?_⟩
        · rw [hr]
          simp [pushEvents]
        · exact noGetBeforeMkdir_warns _ _ (sanitize_filename_warns att.title) _
      · rw [if_pos h4, if_neg h44]
        refine ⟨(sanitize_filename att.title).2 ++
            Event.mkdir (dir ++ [ATTACHMENT_FOLDER_NAME]) ::
              [Event.httpGet (attUrl env att.download)], ?_, ?_⟩
        · simp [pushEvents]
        · exact noGetBeforeMkdir_warns _ _ (sanitize_filename_warns att.title) _
    · rw [if_neg h4]
      obtain ⟨Δr, hr, -, -⟩ := dump_attachments_mono env dir rest
        (pushEvents (pushEvents st
          ((sanitize_filename att.title).2 ++
            [Event.mkdir (dir ++ [ATTACHMENT_FOLDER_NAME]),
             Event.httpGet (attUrl env att.download)]))
          [Event.writeAtt (dir ++ [ATTACHMENT_FOLDER_NAME] ++
              [(sanitize_filename att.title).1])
            (env.attBody (attUrl env att.download))])
      refine ⟨(sanitize_filename att.title).2 ++
          Event.mkdir (dir ++ [ATTACHMENT_FOLDER_NAME]) ::
            (Event.httpGet (attUrl env att.download) ::
             Event.writeAtt (dir ++ [ATTACHMENT_FOLDER_NAME] ++
                 [(sanitize_filename att.title).1])
               (env.attBody (attUrl env att.download)) :: Δr), ?_, ?_⟩
      · rw [hr]
        simp [pushEvents]
      · exact noGetBeforeMkdir_warns _ _ (sanitize_filename_warns att.title) _

/-- C10: for every attachment processed by the fetcher, the page's
`attachments` directory is created before the download request is issued (no
`httpGet` of the loop precedes the first `mkdir` of that directory, and the
creation also precedes the status inspection, which follows the request);
hence when the attachment list is non-empty and every download answers 404,
the run continues, no attachment file is written, yet the attachments
directory was still created. -/
theorem claim_C10_attachments_dir_created (env : Env) (dir : List Str)
    (atts : List Attachment) (st : St) :
    (∃ Δ, (dump_attachments env dir atts st).1.events = st.events ++ Δ ∧
      noGetBeforeMkdir (dir ++ [ATTACHMENT_FOLDER_NAME]) Δ) ∧
    (atts ≠ [] → (∀ a ∈ atts, env.status (attUrl env a.download) = 404) →
      (dump_attachments env dir atts st).2 = none ∧
      Event.mkdir (dir ++ [ATTACHMENT_FOLDER_NAME]) ∈
        (dump_attachments env dir atts st).1.events ∧
      writtenAtts (dump_attachments env dir atts st).1.events =
        writtenAtts st.events) := by
  refine ⟨dump_attachments_mkdirFirst env dir atts st, ?_⟩
  intro hne hall
  refine ⟨(dump_attachments_all404 env dir atts st hall).1, ?_,
    (dump_attachments_all404 env dir atts st hall).2⟩
  cases atts with
  | nil => exact absurd rfl hne
  | cons att rest =>
    simp only [dump_attachments]
    rw [hall att (by simp), if_pos (by norm_num), if_pos rfl]
    obtain ⟨Δr, hr, -, -⟩ := dump_attachments_mono env dir rest
      (pushEvents (pushEvents st
        ((sanitize_filename att.title).2 ++
          [Event.mkdir (dir ++ [ATTACHMENT_FOLDER_NAME]),
           Event.httpGet (attUrl env att.download)]))
        [Event.log404 (attUrl env att.download)])
    rw [hr]
    simp [pushEvents]

/-- Witness for C10: the concrete all-404 single-attachment run. -/
theorem claim_C10_attachments_dir_created_witness :
    (∃ Δ, (dump_attachments env404 [] [att0] { seen := [], events := [] }).1.events =
        ({ seen := [], events := [] } : St).events ++ Δ ∧
      noGetBeforeMkdir ([] ++ [ATTACHMENT_FOLDER_NAME]) Δ) ∧
    ((dump_attachments env404 [] [att0] { seen := [], events := [] }).2 = none ∧
      Event.mkdir ([] ++ [ATTACHMENT_FOLDER_NAME]) ∈
        (dump_attachments env404 [] [att0] { seen := [], events := [] }).1.events ∧
      writtenAtts (dump_attachments env404 [] [att0]
          { seen := [], events := [] }).1.events =
        writtenAtts ({ seen := [], events := [] } : St).events) :=
  ⟨(claim_C10_attachments_dir_created env404 [] [att0] { seen := [], events := [] }).1,
   (claim_C10_attachments_dir_created env404 [] [att0] { seen := [], events := [] }).2
     (by simp) (by decide)⟩

/-- Joining a relative filename under the attachments folder. -/
theorem osPathJoin_attachments (url : Str) (h : url.head? ≠ some '/') :
    osPathJoin ATTACHMENT_FOLDER_NAME url = strChars ("attachments/") ++ url := by
  unfold osPathJoin
  rw [if_neg h, if_neg (by decide)]
  rfl

/-- C7 counterexample: the claim reads the lookup as "first DESCENDANT
carrying the filename attribute".  On `c7node` a descendant does carry it (the
second child), so the claim demands a replacement by an image element; the
code inspects only the first direct child, finds nothing, and leaves the
construct structurally unchanged — no image element is produced. -/
theorem claim_C7_counterexample :
    specFirstDescFilename 2 c7node = some (strChars ("a.png")) ∧
    normalizeNodeF 2 c7node = [c7node] ∧
    (normalizeNodeF 2 c7node).map elName = [strChars ("ac:image")] :=
  ⟨rfl, rfl, rfl⟩

/-- C7 amended: the normalizer inspects only the FIRST DIRECT CHILD of each
vendor embedded-image construct.  If that child carries the recognized
filename attribute, the construct is replaced by an image element whose source
and alternate text both equal `"attachments/" + filename` (for a filename not
beginning with the path separator; the join is `os.path.join`), with the
line-break node inserted after it; otherwise — no children, or a first child
without the attribute — the construct itself is left in place unchanged, only
its children being processed recursively for further constructs. -/
theorem claim_C7_first_child_image_rewrite (fuel : Nat) (attrs : List (Str × Str))
    (c : Html) (rest : List Html) (url : Str) (children : List Html) :
    (children = c :: rest →
      getAttr c (strChars ("ri:filename")) = some url →
      url.head? ≠ some '/' →
      normalizeNodeF (fuel + 1) (Html.el (strChars ("ac:image")) attrs children) =
        [Html.el (strChars ("img"))
           [(strChars ("src"), strChars ("attachments/") ++ url),
            (strChars ("alt"), strChars ("attachments/") ++ url)] [],
         Html.el (strChars ("br")) [] []]) ∧
    (firstChildFilename children = none →
      normalizeNodeF (fuel + 1) (Html.el (strChars ("ac:image")) attrs children) =
        [Html.el (strChars ("ac:image")) attrs
          ((children.map (normalizeNodeF fuel)).flatten)]) := by
  constructor
  · rintro rfl hattr hsl
    simp only [normalizeNodeF, if_pos rfl, firstChildFilename]
    rw [hattr]
    simp [osPathJoin_attachments url hsl]
  · intro h
    simp only [normalizeNodeF, if_pos rfl]
    rw [h]
    simp

/-- Witness for the amended C7: a construct whose first child carries the
attribute is rewritten; a construct with no children is left in place. -/
theorem claim_C7_first_child_image_rewrite_witness :
    normalizeNodeF 1 (Html.el (strChars ("ac:image")) []
        [Html.el (strChars ("ri:attachment"))
          [(strChars ("ri:filename"), strChars ("x.png"))] []]) =
      [Html.el (strChars ("img"))
         [(strChars ("src"), strChars ("attachments/") ++ strChars ("x.png")),
          (strChars ("alt"), strChars ("attachments/") ++ strChars ("x.png"))] [],
       Html.el (strChars ("br")) [] []] ∧
    normalizeNodeF 1 (Html.el (strChars ("ac:image")) [] []) =
      [Html.el (strChars ("ac:image")) []
        ((([] : List Html).map (normalizeNodeF 0)).flatten)] :=
  ⟨(claim_C7_first_child_image_rewrite 0 []
      (Html.el (strChars ("ri:attachment"))
        [(strChars ("ri:filename"), strChars ("x.png"))] [])
      [] (strChars ("x.png"))
      [Html.el (strChars ("ri:attachment"))
        [(strChars ("ri:filename"), strChars ("x.png"))] []]).1 rfl rfl (by decide),
   (claim_C7_first_child_image_rewrite 0 [] (Html.el [] [] []) [] [] []).2 rfl⟩

/-- C8 counterexample: in the spec's scenario (space `"DOCS"`, homepage id 1
`"Home"` with the single leaf child id 2 `"Getting Started"`), the run writes
`DOCS/index.html` and `DOCS/Home/Getting Started.html`; the file
`DOCS/Getting Started.html` demanded by the claim is never written, so the
claimed set of files is wrong. -/
theorem claim_C8_counterexample :
    writtenPages runDocs.1.events =
      [[strChars ("DOCS"), strChars ("index.html")],
       [strChars ("DOCS"), strChars ("Home"), strChars ("Getting Started.html")]] ∧
    [strChars ("DOCS"), strChars ("Getting Started.html")] ∉
      writtenPages runDocs.1.events :=
  ⟨by decide, by decide⟩

/-- C8 amended: in that scenario the raw pass writes exactly
`DOCS/index.html` and `DOCS/Home/Getting Started.html` (the recursive call
appends the parent title `"Home"` to the child's ancestor segments), and the
run finishes without a fatal error. -/
theorem claim_C8_scenario_files :
    writtenPages runDocs.1.events =
      [[strChars ("DOCS"), strChars ("index.html")],
       [strChars ("DOCS"), strChars ("Home"), strChars ("Getting Started.html")]] ∧
    runDocs.2 = none :=
  ⟨by decide, by decide⟩

/-- C9 counterexample: the attachment titled `"../secret.png"` on the homepage
`"Home"` of space `"DOCS"` is saved as `DOCS/attachments/__secret.png` — each
of the two invalid substrings is replaced by `"_"` — not as
`DOCS/attachments/secret.png` as the claim states. -/
theorem claim_C9_counterexample :
    writtenAtts runDocsAtt.1.events =
      [[strChars ("DOCS"), strChars ("attachments"), strChars ("__secret.png")]] ∧
    [strChars ("DOCS"), strChars ("attachments"), strChars ("secret.png")] ∉
      writtenAtts runDocsAtt.1.events :=
  ⟨by decide, by decide⟩

/-- C9 amended: the attachment titled `"../secret.png"` is sanitized to
`"__secret.png"` (`".."` and then `"/"` each replaced by `"_"`) and saved at
`DOCS/attachments/__secret.png`, with both replacements logged; the run
continues. -/
theorem claim_C9_scenario_attachment :
    writtenAtts runDocsAtt.1.events =
      [[strChars ("DOCS"), strChars ("attachments"), strChars ("__secret.png")]] ∧
    Event.warnDangerous (strChars ("../secret.png")) dotdot ∈ runDocsAtt.1.events ∧
    Event.warnDangerous (strChars ("_/secret.png")) slash ∈ runDocsAtt.1.events ∧
    runDocsAtt.2 = none := by
  refine ⟨by decide, by decide, by decide, by decide⟩

theorem events_mono_trans {a b c : List Event}
    (h1 : ∃ Δ, b = a ++ Δ) (h2 : ∃ Δ, c = b ++ Δ) : ∃ Δ, c = a ++ Δ := by
  obtain ⟨Δ1, rfl⟩ := h1
  obtain ⟨Δ2, rfl⟩ := h2
  exact ⟨Δ1 ++ Δ2, by simp⟩

/-- Any trace invariant preserved by each child step is preserved by the whole
child loop. -/
theorem runChildren_pres (P : List Event → Prop)
    (step : Nat → St → St × Option ExportErr)
    (hstep : ∀ cid st, P st.events → P (step cid st).1.events) :
    ∀ l st, P st.events → P (runChildren step l st).1.events := by
  intro l
  induction l with
  | nil =>
    intro st h
    exact h
  | cons cid rest ih =>
    intro st h
    have hst := hstep cid st h
    simp only [runChildren]
    cases hs : step cid st with
    | mk st1 e =>
      rw [hs] at hst
      cases e with
      | none => exact ih st1 hst
      | some err => exact hst

/-- The child loop only appends events when each step does. -/
theorem runChildren_mono (step : Nat → St → St × Option ExportErr)
    (hstep : ∀ cid st, ∃ Δ, (step cid st).1.events = st.events ++ Δ) :
    ∀ l st, ∃ Δ, (runChildren step l st).1.events = st.events ++ Δ := by
  intro l st
  refine runChildren_pres (fun evs => ∃ Δ, evs = st.events ++ Δ) step ?_ l st ⟨[], by simp⟩
  intro cid st' h
  exact events_mono_trans h (hstep cid st')

/-- Membership in the trace survives the child loop. -/
theorem mem_runChildren (step : Nat → St → St × Option ExportErr)
    (hstep : ∀ cid st, ∃ Δ, (step cid st).1.events = st.events ++ Δ)
    (l : List Nat) (st : St) (X : Event) (hX : X ∈ st.events) :
    X ∈ (runChildren step l st).1.events := by
  obtain ⟨Δ, hΔ⟩ := runChildren_mono step hstep l st
  rw [hΔ]
  exact List.mem_append.mpr (Or.inl hX)

/-- `__dump_page` only ever appends to the event trace. -/
theorem dump_page_events_mono (env : Env) :
    ∀ fuel srcId parents st, ∃ Δ,
      (dump_page env fuel srcId parents st).1.events = st.events ++ Δ := by
  intro fuel
  induction fuel with
  | zero =>
    intro srcId parents st
    exact ⟨[], by simp [dump_page]⟩
  | succ fuel ih =>
    intro srcId parents st
    by_cases hseen : srcId ∈ st.seen
    · exact ⟨[], by simp [dump_page, hseen]⟩
    · cases hpg : env.pages srcId with
      | none =>
        exact ⟨[Event.fetchPage srcId], by simp [dump_page, hseen, hpg, pushEvents]⟩
      | some page =>
        simp only [dump_page, if_neg hseen, hpg]
        by_cases hna : env.noAttach
        · simp only [if_pos hna]
          exact events_mono_trans
            (events_mono_trans ⟨page_events srcId page parents, rfl⟩
              ⟨[Event.markSeen page.id], rfl⟩)
            (runChildren_mono _
              (fun cid st' => ih cid (sanitized_parents parents ++ [page.title]) st')
              page.childIds _)
        · simp only [if_neg hna]
          cases hatt : dump_attachments env (sanitized_parents parents) page.attachments
              (pushEvents (pushEvents st (page_events srcId page parents))
                [Event.listAttachments page.id]) with
          | mk st2 e =>
            obtain ⟨Δa, ha, -, -⟩ :=
              dump_attachments_mono env (sanitized_parents parents) page.attachments
                (pushEvents (pushEvents st (page_events srcId page parents))
                  [Event.listAttachments page.id])
            rw [hatt] at ha
            have hchain : ∃ Δ, st2.events = st.events ++ Δ :=
              events_mono_trans
                (events_mono_trans ⟨page_events srcId page parents, rfl⟩
                  ⟨[Event.listAttachments page.id], rfl⟩)
                ⟨Δa, ha⟩
            cases e with
            | some err => exact hchain
            | none =>
              exact events_mono_trans
                (events_mono_trans hchain ⟨[Event.markSeen page.id], rfl⟩)
                (runChildren_mono _
                  (fun cid st' => ih cid (sanitized_parents parents ++ [page.title]) st')
                  page.childIds _)

/-- Accumulator weakening for the marked-after-fetch-and-write scan. -/
theorem seenOkFrom_mono : ∀ (evs : List Event) (f w fb wb : List Nat),
    (∀ d, d ∈ f → d ∈ fb) → (∀ d, d ∈ w → d ∈ wb) →
    seenOkFrom f w evs → seenOkFrom fb wb evs := by
  intro evs
  induction evs with
  | nil =>
    intro f w fb wb _ _ _
    trivial
  | cons e rest ih =>
    intro f w fb wb hf hw h
    cases e
    case markSeen d =>
      obtain ⟨⟨h1, h2⟩, h3⟩ := h
      exact ⟨⟨hf d h1, hw d h2⟩, ih f w fb wb hf hw h3⟩
    case fetchPage i =>
      refine ih (i :: f) w (i :: fb) wb ?_ hw h
      intro d hd
      rcases List.mem_cons.mp hd with h1 | h1
      · simp [h1]
      · simp [hf d h1]
    case writePage i p c =>
      refine ih f (i :: w) fb (i :: wb) hf ?_ h
      intro d hd
      rcases List.mem_cons.mp hd with h1 | h1
      · simp [h1]
      · simp [hw d h1]
    all_goals exact ih f w fb wb hf hw h

/-- Splitting the scan at a concatenation: the suffix is scanned with the ids
fetched and written in the prefix added to the accumulators. -/
theorem seenOkFrom_append : ∀ (xs ys : List Event) (f w : List Nat),
    seenOkFrom f w xs →
    seenOkFrom (fetchedIds xs ++ f) (writtenIds xs ++ w) ys →
    seenOkFrom f w (xs ++ ys) := by
  intro xs
  induction xs with
  | nil =>
    intro ys f w _ hy
    simpa only [fetchedIds, writtenIds, List.filterMap_nil, List.nil_append] using hy
  | cons e rest ih =>
    intro ys f w hx hy
    cases e
    case markSeen d =>
      obtain ⟨hd, hx1⟩ := hx
      exact ⟨hd, ih ys f w hx1
        (by simpa only [fetchedIds, writtenIds, List.filterMap_cons] using hy)⟩
    case fetchPage i =>
      show seenOkFrom (i :: f) w (rest ++ ys)
      refine ih ys (i :: f) w hx ?_
      refine seenOkFrom_mono ys _ _ _ _ ?_ ?_ hy
      · intro d hd
        simp only [fetchedIds, List.filterMap_cons] at hd ⊢
        simp only [List.mem_append, List.mem_cons] at hd ⊢
        tauto
      · intro d hd
        simp only [writtenIds, List.filterMap_cons] at hd ⊢
        exact hd
    case writePage i p c =>
      show seenOkFrom f (i :: w) (rest ++ ys)
      refine ih ys f (i :: w) hx ?_
      refine seenOkFrom_mono ys _ _ _ _ ?_ ?_ hy
      · intro d hd
        simp only [fetchedIds, List.filterMap_cons] at hd ⊢
        exact hd
      · intro d hd
        simp only [writtenIds, List.filterMap_cons] at hd ⊢
        simp only [List.mem_append, List.mem_cons] at hd ⊢
        tauto
    all_goals
      exact ih ys f w hx
        (by simpa only [fetchedIds, writtenIds, List.filterMap_cons] using hy)

/-- A trace with no `markSeen` passes the scan with any accumulators. -/
theorem seenOkFrom_of_no_mark : ∀ (evs : List Event) (f w : List Nat),
    (∀ d, Event.markSeen d ∉ evs) → seenOkFrom f w evs := by
  intro evs
  induction evs with
  | nil =>
    intro f w _
    trivial
  | cons e rest ih =>
    intro f w h
    cases e
    case markSeen d => exact absurd (List.mem_cons_self _ _) (h d)
    all_goals exact ih _ _ (fun d hmem => h d (List.mem_cons_of_mem _ hmem))

/-- Appending a markSeen-free block preserves the scan. -/
theorem seenOkFrom_append_no_mark (evs Δ : List Event) (f w : List Nat)
    (h : seenOkFrom f w evs) (hm : ∀ d, Event.markSeen d ∉ Δ) :
    seenOkFrom f w (evs ++ Δ) :=
  seenOkFrom_append evs Δ f w h (seenOkFrom_of_no_mark Δ _ _ hm)

/-- Appending `markSeen d` is fine once `d` was fetched and written. -/
theorem seenOkFrom_append_mark (evs : List Event) (f w : List Nat) (d : Nat)
    (h : seenOkFrom f w evs) (hf : d ∈ fetchedIds evs ++ f)
    (hw : d ∈ writtenIds evs ++ w) :
    seenOkFrom f w (evs ++ [Event.markSeen d]) :=
  seenOkFrom_append evs [Event.markSeen d] f w h ⟨⟨hf, hw⟩, trivial⟩

theorem mem_fetchedIds_of (i : Nat) (evs : List Event)
    (h : Event.fetchPage i ∈ evs) : i ∈ fetchedIds evs := by
  unfold fetchedIds
  exact List.mem_filterMap.mpr ⟨Event.fetchPage i, h, rfl⟩

theorem mem_writtenIds_of (i : Nat) (p : List Str) (c : Str) (evs : List Event)
    (h : Event.writePage i p c ∈ evs) : i ∈ writtenIds evs := by
  unfold writtenIds
  exact List.mem_filterMap.mpr ⟨Event.writePage i p c, h, rfl⟩

/-- The per-page event block contains no `markSeen`. -/
theorem markSeen_not_mem_page_events (srcId : Nat) (page : Page)
    (parents : List Str) (d : Nat) :
    Event.markSeen d ∉ page_events srcId page parents := by
  intro h
  unfold page_events at h
  rcases List.mem_append.mp h with h | h
  · rcases List.mem_append.mp h with h | h
    · rcases List.mem_append.mp h with h | h
      · simp at h
      · exact markSeen_not_mem_warns _ d h
    · unfold parent_warns at h
      rcases List.mem_flatten.mp h with ⟨l, hl, hel⟩
      rcases List.mem_map.mp hl with ⟨p, -, rfl⟩
      exact markSeen_not_mem_warns p d hel
  · simp at h

theorem fetchPage_mem_page_events (srcId : Nat) (page : Page)
    (parents : List Str) :
    Event.fetchPage srcId ∈ page_events srcId page parents := by
  unfold page_events
  simp

theorem writePage_mem_page_events (srcId : Nat) (page : Page)
    (parents : List Str) :
    Event.writePage page.id (page_location page parents) page.body ∈
      page_events srcId page parents := by
  unfold page_events
  simp

/-- On a well-formed instance, `__dump_page` preserves the
marked-after-fetch-and-write scan: every id it adds to the visited set is
marked only after its page was fetched and its document written. -/
theorem dump_page_safw (env : Env) (hwf : EnvWF env) :
    ∀ fuel srcId parents st f w, seenOkFrom f w st.events →
      seenOkFrom f w (dump_page env fuel srcId parents st).1.events := by
  intro fuel
  induction fuel with
  | zero =>
    intro srcId parents st f w h
    exact h
  | succ fuel ih =>
    intro srcId parents st f w h
    by_cases hseen : srcId ∈ st.seen
    · simpa [dump_page, hseen] using h
    · cases hpg : env.pages srcId with
      | none =>
        simp only [dump_page, if_neg hseen, hpg]
        exact seenOkFrom_append_no_mark _ _ _ _ h (fun d => by simp)
      | some page =>
        have hpid : page.id = srcId := hwf srcId page hpg
        simp only [dump_page, if_neg hseen, hpg]
        by_cases hna : env.noAttach
        · simp only [if_pos hna]
          have h1 : seenOkFrom f w (st.events ++ page_events srcId page parents) :=
            seenOkFrom_append_no_mark _ _ _ _ h
              (fun d => markSeen_not_mem_page_events srcId page parents d)
          have h2 : seenOkFrom f w ((st.events ++ page_events srcId page parents) ++
              [Event.markSeen page.id]) := by
            refine seenOkFrom_append_mark _ _ _ _ h1 ?_ ?_
            · refine List.mem_append.mpr (Or.inl (mem_fetchedIds_of _ _ ?_))
              rw [hpid]
              exact List.mem_append.mpr
                (Or.inr (fetchPage_mem_page_events srcId page parents))
            · refine List.mem_append.mpr
                (Or.inl (mem_writtenIds_of _ (page_location page parents) page.body _ ?_))
              exact List.mem_append.mpr
                (Or.inr (writePage_mem_page_events srcId page parents))
          exact runChildren_pres (seenOkFrom f w) _
            (fun cid st' hst' =>
              ih cid (sanitized_parents parents ++ [page.title]) st' f w hst')
            page.childIds _ h2
        · simp only [if_neg hna]
          have h1 : seenOkFrom f w ((st.events ++ page_events srcId page parents) ++
              [Event.listAttachments page.id]) := by
            refine seenOkFrom_append_no_mark _ _ _ _ ?_ (fun d => by simp)
            exact seenOkFrom_append_no_mark _ _ _ _ h
              (fun d => markSeen_not_mem_page_events srcId page parents d)
          cases hatt : dump_attachments env (sanitized_parents parents) page.attachments
              (pushEvents (pushEvents st (page_events srcId page parents))
                [Event.listAttachments page.id]) with
          | mk st2 e =>
            obtain ⟨Δa, ha, hm, -⟩ :=
              dump_attachments_mono env (sanitized_parents parents) page.attachments
                (pushEvents (pushEvents st (page_events srcId page parents))
                  [Event.listAttachments page.id])
            rw [hatt] at ha
            have h2 : seenOkFrom f w st2.events := by
              rw [ha]
              exact seenOkFrom_append_no_mark _ _ _ _ h1 hm
            cases e with
            | some err => exact h2
            | none =>
              have h3 : seenOkFrom f w (st2.events ++ [Event.markSeen page.id]) := by
                refine seenOkFrom_append_mark _ _ _ _ h2 ?_ ?_
                · refine List.mem_append.mpr (Or.inl (mem_fetchedIds_of _ _ ?_))
                  rw [ha, hpid]
                  simp only [pushEvents, List.mem_append]
                  exact Or.inl (Or.inl (Or.inr (fetchPage_mem_page_events srcId page parents)))
                · refine List.mem_append.mpr
                    (Or.inl (mem_writtenIds_of _ (page_location page parents) page.body _ ?_))
                  rw [ha]
                  simp only [pushEvents, List.mem_append]
                  exact Or.inl (Or.inl (Or.inr (writePage_mem_page_events srcId page parents)))
              exact runChildren_pres (seenOkFrom f w) _
                (fun cid st' hst' =>
                  ih cid (sanitized_parents parents ++ [page.title]) st' f w hst')
                page.childIds _ h3

/-- The C8 scenario instance is well formed: every page carries its own id. -/
theorem envDocs_wf : EnvWF envDocs := by
  intro id p h
  simp only [envDocs] at h
  split at h
  next heq =>
    injection h with h2
    subst h2
    rw [heq]
    rfl
  next =>
    split at h
    next heq =>
      injection h with h2
      subst h2
      rw [heq]
      rfl
    next => exact absurd h (by simp)

/-- C1: re-visiting a page id raises the duplicate-page error with the state
untouched — nothing is fetched or written first, and the page is not silently
skipped — and (on a well-formed instance) an id is added to the visited set
only after its own page has been fetched and its document written. -/
theorem claim_C1_duplicate_page_guard (env : Env) (fuel srcId : Nat)
    (parents : List Str) (st : St) (hwf : EnvWF env) :
    (srcId ∈ st.seen →
      dump_page env (fuel + 1) srcId parents st =
        (st, some (ExportErr.duplicatePage srcId))) ∧
    (seenAfterFetchWrite st.events →
      seenAfterFetchWrite (dump_page env (fuel + 1) srcId parents st).1.events) := by
  constructor
  · intro hseen
    simp [dump_page, hseen]
  · intro h
    exact dump_page_safw env hwf (fuel + 1) srcId parents st [] [] h

/-- Witness for C1: the duplicate guard fires on a state that has already
visited id 1, and the scan holds for the concrete run. -/
theorem claim_C1_duplicate_page_guard_witness :
    dump_page envDocs 1 1 [] { seen := [1], events := [] } =
      ({ seen := [1], events := [] }, some (ExportErr.duplicatePage 1)) ∧
    seenAfterFetchWrite
      (dump_page envDocs 1 1 [] { seen := [1], events := [] }).1.events := by
  have h := claim_C1_duplicate_page_guard envDocs 0 1 [] { seen := [1], events := [] }
    envDocs_wf
  exact ⟨h.1 (by decide), h.2 trivial⟩

/-- C2: the exported document of a page with at least one child is named
exactly `"index" + ".html"` regardless of its title, and that of a childless
page is named `sanitize(title) + ".html"`; the write event in the trace
carries exactly that name as the last path segment under the sanitized
ancestors. -/
theorem claim_C2_document_name (env : Env) (fuel srcId : Nat)
    (parents : List Str) (st : St) (page : Page)
    (hseen : srcId ∉ st.seen) (hpg : env.pages srcId = some page) :
    Event.writePage page.id
        (parents.map sanitize ++
          [(if page.childIds.length > 0 then strChars ("index")
            else sanitize page.title) ++ strChars (".html")])
        page.body ∈
      (dump_page env (fuel + 1) srcId parents st).1.events := by
  have hname : (if page.childIds.length > 0 then strChars ("index")
      else sanitize page.title) ++ strChars (".html") = sanitized_filename_of page := by
    unfold sanitized_filename_of document_name
    by_cases hc : page.childIds.length > 0
    · rw [if_pos hc, if_pos hc,
        show sanitize (strChars ("index")) = strChars ("index") from by decide]
    · rw [if_neg hc, if_neg hc]
  rw [hname]
  show Event.writePage page.id (page_location page parents) page.body ∈ _
  simp only [dump_page, if_neg hseen, hpg]
  by_cases hna : env.noAttach
  · simp only [if_pos hna]
    refine mem_runChildren _
      (fun cid st' => dump_page_events_mono env fuel cid _ st') page.childIds _ _ ?_
    show _ ∈ (pushEvents st (page_events srcId page parents)).events ++
      [Event.markSeen page.id]
    refine List.mem_append.mpr (Or.inl ?_)
    show _ ∈ st.events ++ page_events srcId page parents
    exact List.mem_append.mpr (Or.inr (writePage_mem_page_events srcId page parents))
  · simp only [if_neg hna]
    cases hatt : dump_attachments env (sanitized_parents parents) page.attachments
        (pushEvents (pushEvents st (page_events srcId page parents))
          [Event.listAttachments page.id]) with
    | mk st2 e =>
      obtain ⟨Δa, ha, -, -⟩ :=
        dump_attachments_mono env (sanitized_parents parents) page.attachments
          (pushEvents (pushEvents st (page_events srcId page parents))
            [Event.listAttachments page.id])
      rw [hatt] at ha
      have hmem : Event.writePage page.id (page_location page parents) page.body ∈
          st2.events := by
        rw [ha]
        simp only [pushEvents, List.mem_append]
        exact Or.inl (Or.inl (Or.inr (writePage_mem_page_events srcId page parents)))
      cases e with
      | some err => exact hmem
      | none =>
        refine mem_runChildren _
          (fun cid st' => dump_page_events_mono env fuel cid _ st') page.childIds _ _ ?_
        show _ ∈ st2.events ++ [Event.markSeen page.id]
        exact List.mem_append.mpr (Or.inl hmem)

/-- Witness for C2: in the concrete scenario the homepage (which has a child)
is written as `index.html` under `DOCS` with its sanitized ancestors. -/
theorem claim_C2_document_name_witness :
    Event.writePage homePage.id
        ([strChars ("DOCS")].map sanitize ++
          [(if homePage.childIds.length > 0 then strChars ("index")
            else sanitize homePage.title) ++ strChars (".html")])
        homePage.body ∈
      (dump_page envDocs 2 1 [strChars ("DOCS")] { seen := [], events := [] }).1.events :=
  claim_C2_document_name envDocs 1 1 [strChars ("DOCS")] { seen := [], events := [] }
    homePage (by decide) (by decide)
